import Mathlib

/-!
Verification of the provider-abstraction and streaming-chat state machine of
the ARIA LLM platform (Reflex app).  The two state modules
`app/states/state.py` (`ChatState`) and `app/states/settings_state.py`
(`SettingsState`) are shallowly embedded: Python strings become `List Char`,
Python dicts become insertion-ordered association lists with unique keys,
Python sets become duplicate-free lists, and the asynchronous event handlers
become pure state-transition functions parameterised by the outcome of the
external network interaction (the stream fragments or the provider response).
-/

/-- Python strings are embedded as lists of characters. -/
abbrev Str := List Char

/-- Literal embedding of a Lean string as a Python string. -/
def pyStr (s : String) : Str := s.toList

/-- Python `str.strip()`: remove whitespace from both ends. -/
def pyStrip (s : Str) : Str :=
  ((s.dropWhile Char.isWhitespace).reverse.dropWhile Char.isWhitespace).reverse

/-- Python `str.strip("/")`: remove slashes from both ends. -/
def pyStripSlash (s : Str) : Str :=
  ((s.dropWhile (fun c => c == '/')).reverse.dropWhile (fun c => c == '/')).reverse

/-- Python `str.startswith(pre)`. -/
def pyStartswith (pre s : Str) : Bool := List.isPrefixOf pre s

/-- Python `c in s` for a single-character needle. -/
def pyContains (c : Char) (s : Str) : Bool := s.any (fun x => x == c)

/-- Split at the first occurrence of `c`: the first component is
`s.split(c)[0]` (the text before the first `c`), the second is
`s.split(c, 1)[1]` when `c` occurs (the entire text after the first `c`),
`none` otherwise. -/
def pySplitFirst (c : Char) : Str → Str × Option Str
  | [] => ([], none)
  | x :: xs =>
    if x = c then ([], some xs)
    else
      let r := pySplitFirst c xs
      (x :: r.1, r.2)

/-- Python `str.replace(pat, rep)`: replace every non-overlapping occurrence
of `pat`, scanning left to right.  (For the empty pattern we return the
string unchanged; the source only uses the pattern `"models/"`.) -/
def pyReplace (pat rep : Str) : Str → Str
  | [] => []
  | x :: xs =>
    if h : pat ≠ [] ∧ List.isPrefixOf pat (x :: xs) then
      rep ++ pyReplace pat rep ((x :: xs).drop pat.length)
    else
      x :: pyReplace pat rep xs
termination_by s => s.length
decreasing_by
  · have hp : 0 < pat.length := List.length_pos.mpr h.1
    simp only [List.length_drop, List.length_cons]
    omega
  · simp

/-- Truthiness of Python's `dict.get(k)` result for a string value:
`None` and the empty string are falsy. -/
def optFalsy : Option Str → Bool
  | none => true
  | some s => s.isEmpty

/-! ### Python dicts as insertion-ordered association lists

All dict states reachable in the program have unique keys (as real Python
dicts do); the operations below preserve that invariant and agree with the
Python semantics on such states. -/

/-- Python `d.get(k)` -/
def dget? {α : Type} : List (Str × α) → Str → Option α
  | [], _ => none
  | e :: rest, k => if e.1 = k then some e.2 else dget? rest k

/-- Python `d.get(k, dflt)` -/
def dgetD {α : Type} (m : List (Str × α)) (k : Str) (dflt : α) : α :=
  (dget? m k).getD dflt

/-- Python `k in d` -/
def dmem {α : Type} (m : List (Str × α)) (k : Str) : Bool :=
  (dget? m k).isSome

/-- Python `d[k] = v`: replace in place when the key is present, else append
at the end (insertion order). -/
def dset {α : Type} : List (Str × α) → Str → α → List (Str × α)
  | [], k, v => [(k, v)]
  | e :: rest, k, v => if e.1 = k then (k, v) :: rest else e :: dset rest k v

/-- Python `d.pop(k, None)` / `del d[k]`: remove the key (all occurrences,
which on unique-key states is the single entry). -/
def dpop {α : Type} : List (Str × α) → Str → List (Str × α)
  | [], _ => []
  | e :: rest, k => if e.1 = k then dpop rest k else e :: dpop rest k

/-- The key sequence of a dict. -/
def dkeys {α : Type} (m : List (Str × α)) : List Str := m.map Prod.fst

/-! ### Python sets as duplicate-free lists -/

/-- Python `x in s` for a set. -/
def smem (s : List Str) (x : Str) : Bool := s.any (fun y => y == x)

/-- Python `s.add(x)`. -/
def sadd (s : List Str) (x : Str) : List Str :=
  if smem s x then s else s ++ [x]

/-- Python `s.remove(x)` / `s.discard(x)`. -/
def sremove (s : List Str) (x : Str) : List Str :=
  s.filter (fun y => !(y == x))

/-! ### Python `sorted` on strings -/

/-- Lexicographic comparison of Python strings (by code point). -/
def strLe : Str → Str → Bool
  | [], _ => true
  | _ :: _, [] => false
  | a :: as, b :: bs => if a = b then strLe as bs else decide (a < b)

/-- Insert into a `strLe`-sorted list. -/
def insStr (a : Str) : List Str → List Str
  | [] => [a]
  | b :: bs => if strLe a b then a :: b :: bs else b :: insStr a bs

/-- Python `sorted(l)` for a list of strings (insertion sort). -/
def pysorted (l : List Str) : List Str := l.foldr insStr []

/-- The list is sorted under `strLe` (adjacent pairs ordered). -/
def isSortedStr : List Str → Bool
  | [] => true
  | [_] => true
  | a :: b :: r => strLe a b && isSortedStr (b :: r)

/-! ### `SettingsState` (`app/states/settings_state.py`) -/

/-- State of the settings module (`SettingsState` in
`app/states/settings_state.py`). -/
structure SettingsState where
  show_settings : Bool
  api_keys : List (Str × Str)
  models : List (Str × List Str)
  expanded_providers : List Str
  model_search_terms : List (Str × Str)
  loading_models : List Str
  error_messages : List (Str × Str)
  selected_model : Str
deriving DecidableEq

/-- The initial `SettingsState`: all eight provider credentials present and
empty, no catalog, nothing loading, nothing selected. -/
def initial_settings : SettingsState :=
  { show_settings := false
    api_keys :=
      [ (pyStr "openai", []), (pyStr "anthropic", []), (pyStr "gemini", [])
      , (pyStr "groq", []), (pyStr "deepseek", []), (pyStr "moonshot", [])
      , (pyStr "openrouter", []), (pyStr "ollama", []) ]
    models := []
    expanded_providers := []
    model_search_terms := []
    loading_models := []
    error_messages := []
    selected_model := [] }

/-- `selected_provider` computed var: `self.selected_model.split(":")[0]`
when the model string contains a colon, else the empty string. -/
def selected_provider_of (m : Str) : Str :=
  if pyContains ':' m then (pySplitFirst ':' m).1 else []

/-- `selected_model_id` computed var: `self.selected_model.split(":", 1)[1]`
when the model string contains a colon, else the empty string. -/
def selected_model_id_of (m : Str) : Str :=
  if pyContains ':' m then (pySplitFirst ':' m).2.getD [] else []

/-- `SettingsState.selected_provider`. -/
def SettingsState.selected_provider (st : SettingsState) : Str :=
  selected_provider_of st.selected_model

/-- `SettingsState.selected_model_id`. -/
def SettingsState.selected_model_id (st : SettingsState) : Str :=
  selected_model_id_of st.selected_model

/-- `SettingsState.select_model`. -/
def select_model (st : SettingsState) (model_id : Str) : SettingsState :=
  { st with selected_model := model_id }

/-! First sanity theorems: the colon-splitting computed vars (claim C3). -/

theorem pySplitFirst_append (a b : Str) (ha : ':' ∉ a) :
    pySplitFirst ':' (a ++ ':' :: b) = (a, some b) := by
  induction a with
  | nil => simp [pySplitFirst]
  | cons x xs ih =>
    have hx : x ≠ ':' := by
      intro h; exact ha (h ▸ List.mem_cons_self x xs)
    have hxs : ':' ∉ xs := fun h => ha (List.mem_cons_of_mem x h)
    simp only [List.cons_append, pySplitFirst, if_neg hx, List.append_eq, ih hxs]

theorem pyContains_append_colon (a b : Str) :
    pyContains ':' (a ++ ':' :: b) = true := by
  simp [pyContains, List.any_append]

/-- C3: only the first colon separates provider from model id. -/
theorem C3_first_colon_split (st : SettingsState) (a b : Str)
    (hm : st.selected_model = a ++ ':' :: b) (ha : ':' ∉ a) :
    st.selected_provider = a ∧ st.selected_model_id = b := by
  unfold SettingsState.selected_provider SettingsState.selected_model_id
  rw [hm]
  unfold selected_provider_of selected_model_id_of
  rw [pyContains_append_colon, pySplitFirst_append a b ha]
  simp

/-- C3 witness: selecting `"ollama:llama2:latest"` yields provider
`"ollama"` and model id `"llama2:latest"`. -/
theorem C3_first_colon_split_witness :
    (select_model initial_settings (pyStr "ollama:llama2:latest")).selected_provider
        = pyStr "ollama" ∧
      (select_model initial_settings (pyStr "ollama:llama2:latest")).selected_model_id
        = pyStr "llama2:latest" :=
  C3_first_colon_split _ (pyStr "ollama") (pyStr "llama2:latest")
    (by decide) (by decide)

/-! ### Catalog fetchers

Each `_fetch_*` coroutine performs one network interaction and catches its
exceptions internally, always returning a `(models, error)` pair.  The
network's behaviour is an explicit parameter: one response type per
endpoint, with a constructor for each exception class the fetcher handles
(the message field stands for Python's `str(e)`). -/

/-- Response of an OpenAI-style `/models` listing (openai, groq, deepseek):
the model ids on success, or an `AuthenticationError`, or any other
exception. -/
inductive OpenAIStyleResp where
  | ok (ids : List Str)
  | authErr (msg : Str)
  | exn (msg : Str)
deriving DecidableEq

/-- Response of the Gemini SDK model listing: each entry is a model name
paired with whether `"generateContent"` is among its supported generation
methods; or any exception. -/
inductive GeminiResp where
  | ok (ms : List (Str × Bool))
  | exn (msg : Str)
deriving DecidableEq

/-- Response of the OpenRouter listing: ids, an `HTTPStatusError` carrying
the status code (rendered as a string), or any other exception. -/
inductive OpenRouterResp where
  | ok (ids : List Str)
  | statusErr (code : Str)
  | exn (msg : Str)
deriving DecidableEq

/-- Response of the Moonshot listing: ids or any exception. -/
inductive MoonshotResp where
  | ok (ids : List Str)
  | exn (msg : Str)
deriving DecidableEq

/-- Response of Ollama `GET /api/tags`: the model names, a
`ConnectError`/`RequestError`, or any other exception. -/
inductive OllamaResp where
  | ok (names : List Str)
  | connectErr (msg : Str)
  | exn (msg : Str)
deriving DecidableEq

/-- The environment a `refresh_models` call runs against: one response per
endpoint it may contact. -/
structure NetEnv where
  openai : OpenAIStyleResp
  groq : OpenAIStyleResp
  deepseek : OpenAIStyleResp
  gemini : GeminiResp
  openrouter : OpenRouterResp
  moonshot : MoonshotResp
  ollama : OllamaResp
deriving DecidableEq

/-- An environment whose every endpoint returns an empty listing. -/
def emptyNetEnv : NetEnv :=
  { openai := .ok [], groq := .ok [], deepseek := .ok []
    gemini := .ok [], openrouter := .ok [], moonshot := .ok []
    ollama := .ok [] }

/-- `_fetch_openai_compatible_models`: missing/empty key short-circuits to
`([], None)`; success sorts the ids; `AuthenticationError` maps to
`"Invalid API Key."`; anything else to `"Error: <e>"`. -/
def fetch_openai_compatible_models (st : SettingsState) (provider : Str)
    (r : OpenAIStyleResp) : List Str × Option Str :=
  if optFalsy (dget? st.api_keys provider) then ([], none)
  else
    match r with
    | .ok ids => (pysorted ids, none)
    | .authErr _ => ([], some (pyStr "Invalid API Key."))
    | .exn m => ([], some (pyStr "Error: " ++ m))

/-- `_fetch_gemini_models`: missing/empty key short-circuits; success keeps
models supporting `generateContent`, replaces `"models/"` in each name, and
sorts; any exception maps to `"Error: <e>"`. -/
def fetch_gemini_models (st : SettingsState) (r : GeminiResp) :
    List Str × Option Str :=
  if optFalsy (dget? st.api_keys (pyStr "gemini")) then ([], none)
  else
    match r with
    | .ok ms =>
        (pysorted ((ms.filter (fun m => m.2)).map
          (fun m => pyReplace (pyStr "models/") [] m.1)), none)
    | .exn m => ([], some (pyStr "Error: " ++ m))

/-- `_fetch_openrouter_models`: no key requirement; success sorts the ids;
`HTTPStatusError` surfaces the status code; anything else `"Error: <e>"`. -/
def fetch_openrouter_models (r : OpenRouterResp) : List Str × Option Str :=
  match r with
  | .ok ids => (pysorted ids, none)
  | .statusErr code => ([], some (pyStr "Error: " ++ code))
  | .exn m => ([], some (pyStr "Error: " ++ m))

/-- `_fetch_moonshot_models`: missing/empty key short-circuits; success
sorts the ids; any exception maps to `"Error: <e>"`. -/
def fetch_moonshot_models (st : SettingsState) (r : MoonshotResp) :
    List Str × Option Str :=
  if optFalsy (dget? st.api_keys (pyStr "moonshot")) then ([], none)
  else
    match r with
    | .ok ids => (pysorted ids, none)
    | .exn m => ([], some (pyStr "Error: " ++ m))

/-- The base URL the Ollama catalog fetcher derives:
`self.api_keys.get("ollama", "http://localhost:11434").strip("/")`. -/
def ollama_base_url (st : SettingsState) : Str :=
  pyStripSlash (dgetD st.api_keys (pyStr "ollama") (pyStr "http://localhost:11434"))

/-- The URL `_fetch_ollama_models` requests: `f"{base_url}/api/tags"`. -/
def ollama_tags_url (st : SettingsState) : Str :=
  ollama_base_url st ++ pyStr "/api/tags"

/-- `_fetch_ollama_models`: success sorts the names; connection errors map
to `"Connection failed. Is Ollama running?"`; anything else `"Error: <e>"`. -/
def fetch_ollama_models (r : OllamaResp) : List Str × Option Str :=
  match r with
  | .ok names => (pysorted names, none)
  | .connectErr _ => ([], some (pyStr "Connection failed. Is Ollama running?"))
  | .exn m => ([], some (pyStr "Error: " ++ m))

/-- The hardcoded Anthropic model list from the `provider == "anthropic"`
branch of `refresh_models`, in source order. -/
def anthropic_models : List Str :=
  [ pyStr "claude-3-opus-20240229"
  , pyStr "claude-3-sonnet-20240229"
  , pyStr "claude-3-haiku-20240307" ]

/-- The provider dispatch of `refresh_models` (the if/elif chain between the
two locked sections): the `(fetched_models, error)` pair.  A provider that
matches no branch leaves the initial `([], None)`. -/
def dispatch_fetch (st : SettingsState) (p : Str) (env : NetEnv) :
    List Str × Option Str :=
  if p = pyStr "openai" then fetch_openai_compatible_models st p env.openai
  else if p = pyStr "groq" then fetch_openai_compatible_models st p env.groq
  else if p = pyStr "deepseek" then fetch_openai_compatible_models st p env.deepseek
  else if p = pyStr "gemini" then fetch_gemini_models st env.gemini
  else if p = pyStr "openrouter" then fetch_openrouter_models env.openrouter
  else if p = pyStr "moonshot" then fetch_moonshot_models st env.moonshot
  else if p = pyStr "ollama" then fetch_ollama_models env.ollama
  else if p = pyStr "anthropic" then (anthropic_models, none)
  else ([], none)

/-- The first locked section of `refresh_models`, reached only when the
provider is not already loading: add to the loading and expanded sets,
clear any previous error, drop any cached list. -/
def refresh_entry (st : SettingsState) (p : Str) : SettingsState :=
  { st with
    loading_models := sadd st.loading_models p
    expanded_providers := sadd st.expanded_providers p
    error_messages := dpop st.error_messages p
    models := dpop st.models p }

/-- The second locked section of `refresh_models`: record the error if any,
else store the fetched list only when non-empty; always remove the provider
from the loading set. -/
def refresh_finish (st : SettingsState) (p : Str)
    (fr : List Str × Option Str) : SettingsState :=
  let st1 :=
    match fr.2 with
    | some e => { st with error_messages := dset st.error_messages p e }
    | none =>
        if fr.1 ≠ [] then { st with models := dset st.models p fr.1 }
        else st
  { st1 with loading_models := sremove st1.loading_models p }

/-- `refresh_models` as a state transition, also reporting whether the fetch
section was reached (`false` means the early in-flight return fired before
any fetch). -/
def refresh_models_steps (st : SettingsState) (p : Str) (env : NetEnv) :
    SettingsState × Bool :=
  if smem st.loading_models p then (st, false)
  else
    (refresh_finish (refresh_entry st p) p
      (dispatch_fetch (refresh_entry st p) p env), true)

/-- `SettingsState.refresh_models`: the resulting state. -/
def refresh_models (st : SettingsState) (p : Str) (env : NetEnv) :
    SettingsState :=
  (refresh_models_steps st p env).1

/-- `SettingsState.set_api_key`: store the key, clear the provider's error;
an empty key additionally collapses the provider, drops its cached catalog
and clears a selection pointing at it; a non-empty key instead dispatches a
follow-up `refresh_models` event (modelled separately). -/
def set_api_key (st : SettingsState) (provider key : Str) : SettingsState :=
  let st1 := { st with
    api_keys := dset st.api_keys provider key
    error_messages := dpop st.error_messages provider }
  if key = [] then
    let st2 := { st1 with
      expanded_providers := sremove st1.expanded_providers provider
      models := if dmem st1.models provider then dpop st1.models provider
                else st1.models }
    if st2.selected_provider = provider then { st2 with selected_model := [] }
    else st2
  else st1

/-! ### Dictionary laws -/

theorem dget?_dset_self {α : Type} (m : List (Str × α)) (k : Str) (v : α) :
    dget? (dset m k v) k = some v := by
  induction m with
  | nil => simp [dset, dget?]
  | cons e rest ih =>
    by_cases h : e.1 = k
    · simp [dset, h, dget?]
    · simp [dset, h, dget?, ih]

theorem dget?_dset_ne {α : Type} (m : List (Str × α)) (k k' : Str) (v : α)
    (h : k' ≠ k) : dget? (dset m k v) k' = dget? m k' := by
  induction m with
  | nil => simp [dset, dget?, Ne.symm h]
  | cons e rest ih =>
    by_cases he : e.1 = k
    · subst he
      simp [dset, dget?, Ne.symm h]
    · by_cases he' : e.1 = k'
      · simp [dset, he, dget?, he', h]
      · simp [dset, he, dget?, he', ih]

theorem dget?_dpop_self {α : Type} (m : List (Str × α)) (k : Str) :
    dget? (dpop m k) k = none := by
  induction m with
  | nil => rfl
  | cons e rest ih =>
    by_cases h : e.1 = k
    · simp [dpop, h, ih]
    · simp [dpop, h, dget?, ih]

theorem dget?_dpop_ne {α : Type} (m : List (Str × α)) (k k' : Str)
    (h : k' ≠ k) : dget? (dpop m k) k' = dget? m k' := by
  induction m with
  | nil => rfl
  | cons e rest ih =>
    by_cases he : e.1 = k
    · subst he
      simp [dpop, dget?, Ne.symm h, ih]
    · by_cases he' : e.1 = k'
      · simp [dpop, he, dget?, he', h]
      · simp [dpop, he, dget?, he', ih]

/-! ### Sortedness of `pysorted` -/

theorem strLe_total (a b : Str) : strLe a b = true ∨ strLe b a = true := by
  induction a generalizing b with
  | nil => left; rfl
  | cons x xs ih =>
    cases b with
    | nil => right; rfl
    | cons y ys =>
      by_cases hxy : x = y
      · subst hxy
        simpa [strLe] using ih ys
      · rcases lt_or_gt_of_ne hxy with h | h
        · left; simp [strLe, hxy, h]
        · right; simp [strLe, Ne.symm hxy, h]

theorem isSortedStr_insStr (a : Str) (l : List Str)
    (h : isSortedStr l = true) : isSortedStr (insStr a l) = true := by
  induction l with
  | nil => rfl
  | cons b bs ih =>
    by_cases hab : strLe a b = true
    · simpa [insStr, hab, isSortedStr] using h
    · have hba : strLe b a = true := (strLe_total a b).resolve_left hab
      cases bs with
      | nil => simp [insStr, hab, isSortedStr, hba]
      | cons c cs =>
        have hbc : strLe b c = true := by
          simp [isSortedStr] at h; exact h.1
        have hcs : isSortedStr (c :: cs) = true := by
          simp [isSortedStr] at h
          simpa [isSortedStr] using h.2
        have hrec := ih hcs
        by_cases hac : strLe a c = true
        · simp [insStr, hab, hac, isSortedStr, hba, hcs]
        · have hrec' := hrec
          simp only [insStr, if_neg hac] at hrec'
          simp [insStr, hab, hac, isSortedStr, hbc]
          simpa [isSortedStr] using hrec'

theorem isSortedStr_pysorted (l : List Str) :
    isSortedStr (pysorted l) = true := by
  induction l with
  | nil => rfl
  | cons a rest ih => exact isSortedStr_insStr a (pysorted rest) ih

/-- Every fetcher hands back a `pysorted` (or empty) model list. -/
theorem dispatch_fetch_sorted (st : SettingsState) (p : Str) (env : NetEnv)
    (hp : p ≠ pyStr "anthropic") :
    isSortedStr (dispatch_fetch st p env).1 = true := by
  have hoa : ∀ (st' : SettingsState) (q : Str) (r : OpenAIStyleResp),
      isSortedStr (fetch_openai_compatible_models st' q r).1 = true := by
    intro st' q r
    unfold fetch_openai_compatible_models
    split
    · rfl
    · cases r with
      | ok ids => exact isSortedStr_pysorted ids
      | authErr m => rfl
      | exn m => rfl
  unfold dispatch_fetch
  split_ifs with h1 h2 h3 h4 h5 h6 h7
  · exact hoa _ _ _
  · exact hoa _ _ _
  · exact hoa _ _ _
  · unfold fetch_gemini_models
    split
    · rfl
    · cases env.gemini with
      | ok ms => exact isSortedStr_pysorted _
      | exn m => rfl
  · cases henv : env.openrouter <;>
      simp [fetch_openrouter_models, henv, isSortedStr_pysorted, isSortedStr]
  · unfold fetch_moonshot_models
    split
    · rfl
    · cases env.moonshot with
      | ok ids => exact isSortedStr_pysorted _
      | exn m => rfl
  · cases henv : env.ollama <;>
      simp [fetch_ollama_models, henv, isSortedStr_pysorted, isSortedStr]
  · by_cases h8 : p = pyStr "anthropic"
    · exact absurd h8 hp
    · simp [h8, isSortedStr]

/-! ### Claims C4, C5, C8, C10 -/

/-- C4 counterexample: a successful `refresh_models("anthropic")` stores the
hardcoded list in source order — opus, sonnet, haiku — which is not
alphabetically sorted. -/
theorem C4_counterexample_anthropic_unsorted :
    dget? (refresh_models initial_settings (pyStr "anthropic") emptyNetEnv).models
        (pyStr "anthropic") = some anthropic_models ∧
      isSortedStr anthropic_models = false := by decide

/-- C4 (amended): every model list stored by `refresh_models` for a provider
other than `anthropic` is alphabetically sorted at the time it is stored;
the hardcoded Anthropic list is stored in its source order, which is not
sorted. -/
theorem C4_amended_stored_lists_sorted (st : SettingsState) (p : Str)
    (env : NetEnv) (l : List Str)
    (hload : smem st.loading_models p = false) (hp : p ≠ pyStr "anthropic")
    (hget : dget? (refresh_models st p env).models p = some l) :
    isSortedStr l = true := by
  simp only [refresh_models, refresh_models_steps, hload, Bool.false_eq_true,
    if_false] at hget
  unfold refresh_finish at hget
  rcases hfr : dispatch_fetch (refresh_entry st p) p env with ⟨fl, fe⟩
  rw [hfr] at hget
  cases fe with
  | some e =>
      simp only [refresh_entry] at hget
      rw [dget?_dpop_self] at hget
      exact absurd hget (by simp)
  | none =>
      by_cases hfl : fl = []
      · subst hfl
        simp only [refresh_entry, ne_eq, not_true_eq_false, if_false,
          reduceIte] at hget
        rw [dget?_dpop_self] at hget
        exact absurd hget (by simp)
      · simp only [ne_eq, hfl, not_false_eq_true, if_true, reduceIte] at hget
        rw [dget?_dset_self] at hget
        have hl : l = fl := by
          injection hget with hg
          exact hg.symm
        subst hl
        have := dispatch_fetch_sorted (refresh_entry st p) p env hp
        rw [hfr] at this
        exact this

/-- C4 witness: refreshing openai with a configured key and raw listing
`["b", "a"]` stores the sorted list `["a", "b"]`. -/
theorem C4_amended_stored_lists_sorted_witness :
    isSortedStr [pyStr "a", pyStr "b"] = true :=
  C4_amended_stored_lists_sorted
    (set_api_key initial_settings (pyStr "openai") (pyStr "k"))
    (pyStr "openai")
    { emptyNetEnv with openai := .ok [pyStr "b", pyStr "a"] }
    [pyStr "a", pyStr "b"] (by decide) (by decide) (by decide)

/-- The Ollama chat base URL computed by `_process_and_stream_response`:
`settings.api_keys.get("ollama", "http://localhost:11434").strip("/") + "/v1"`. -/
def ollama_chat_base_url (st : SettingsState) : Str :=
  pyStripSlash (dgetD st.api_keys (pyStr "ollama") (pyStr "http://localhost:11434"))
    ++ pyStr "/v1"

/-- C5: with the unset (empty-string) Ollama credential of the initial
state, the `dict.get` default `"http://localhost:11434"` never applies — the
key is present with value `""` — so the catalog fetch requests the relative
URL `"/api/tags"` and the chat base URL is `"/v1"`, not derived from the
documented default. -/
theorem C5_ollama_default_never_applies :
    dgetD initial_settings.api_keys (pyStr "ollama")
        (pyStr "http://localhost:11434") = [] ∧
      ollama_tags_url initial_settings = pyStr "/api/tags" ∧
      ollama_chat_base_url initial_settings = pyStr "/v1" := by decide

/-- C8: calling `refresh_models(p)` while `p` is already loading returns
immediately — the state (catalog, error map, expanded set, loading set) is
unchanged and the fetch section is never reached. -/
theorem C8_refresh_inflight_noop (st : SettingsState) (p : Str) (env : NetEnv)
    (h : smem st.loading_models p = true) :
    refresh_models_steps st p env = (st, false) := by
  simp [refresh_models_steps, h]

/-- C8 witness: a concrete in-flight refresh is a no-op. -/
theorem C8_refresh_inflight_noop_witness :
    refresh_models_steps
        { initial_settings with loading_models := [pyStr "openai"] }
        (pyStr "openai") emptyNetEnv
      = ({ initial_settings with loading_models := [pyStr "openai"] }, false) :=
  C8_refresh_inflight_noop _ _ _ (by decide)

/-- Every list in the catalog is non-empty. -/
def catalogNonempty (st : SettingsState) : Prop :=
  ∀ p l, dget? st.models p = some l → l ≠ []

/-- C10: `refresh_models` drops the provider's entry on entry and stores the
fetched list only when it is non-empty, and `set_api_key` only ever removes
entries, so every value in the catalog is a non-empty list and a successful
zero-model fetch leaves the provider's key absent. -/
theorem C10_catalog_entries_nonempty :
    (∀ st p env, catalogNonempty st → catalogNonempty (refresh_models st p env)) ∧
    (∀ st p k, catalogNonempty st → catalogNonempty (set_api_key st p k)) ∧
    (∀ st p, dget? (refresh_entry st p).models p = none) ∧
    (∀ st p env, smem st.loading_models p = false →
      dispatch_fetch (refresh_entry st p) p env = ([], none) →
      dget? (refresh_models st p env).models p = none) := by
  refine ⟨?_, ?_, ?_, ?_⟩
  · intro st p env h q l hget
    by_cases hload : smem st.loading_models p = true
    · simp only [refresh_models, refresh_models_steps, hload, if_true] at hget
      exact h q l hget
    · rw [Bool.not_eq_true] at hload
      simp only [refresh_models, refresh_models_steps, hload,
        Bool.false_eq_true, if_false] at hget
      unfold refresh_finish at hget
      rcases hfr : dispatch_fetch (refresh_entry st p) p env with ⟨fl, fe⟩
      rw [hfr] at hget
      cases fe with
      | some e =>
          simp only [refresh_entry] at hget
          by_cases hq : q = p
          · subst hq; rw [dget?_dpop_self] at hget; exact absurd hget (by simp)
          · rw [dget?_dpop_ne _ _ _ hq] at hget
            exact h q l hget
      | none =>
          by_cases hfl : fl = []
          · subst hfl
            simp only [refresh_entry, ne_eq, not_true_eq_false, if_false,
              reduceIte] at hget
            by_cases hq : q = p
            · subst hq; rw [dget?_dpop_self] at hget
              exact absurd hget (by simp)
            · rw [dget?_dpop_ne _ _ _ hq] at hget
              exact h q l hget
          · simp only [ne_eq, hfl, not_false_eq_true, if_true,
              reduceIte, refresh_entry] at hget
            by_cases hq : q = p
            · subst hq
              rw [dget?_dset_self] at hget
              injection hget with hg
              exact hg ▸ hfl
            · rw [dget?_dset_ne _ _ _ _ hq, dget?_dpop_ne _ _ _ hq] at hget
              exact h q l hget
  · intro st p k h q l hget
    unfold set_api_key at hget
    by_cases hk : k = []
    · rw [if_pos hk] at hget
      rw [apply_ite SettingsState.models] at hget
      dsimp only at hget
      rw [ite_self] at hget
      by_cases hm : dmem st.models p = true
      · rw [if_pos hm] at hget
        by_cases hq : q = p
        · subst hq; rw [dget?_dpop_self] at hget
          exact absurd hget (by simp)
        · rw [dget?_dpop_ne _ _ _ hq] at hget
          exact h q l hget
      · rw [if_neg hm] at hget
        exact h q l hget
    · rw [if_neg hk] at hget
      exact h q l hget
  · intro st p
    simp only [refresh_entry]
    exact dget?_dpop_self _ _
  · intro st p env hload hdisp
    simp only [refresh_models, refresh_models_steps, hload,
      Bool.false_eq_true, if_false]
    unfold refresh_finish
    rw [hdisp]
    simp only [ne_eq, not_true_eq_false, if_false, reduceIte, refresh_entry]
    exact dget?_dpop_self _ _

/-- C10 witness: with no openai key configured, a refresh yields zero models
and no error, and the openai key stays absent from the catalog. -/
theorem C10_catalog_entries_nonempty_witness :
    dget? (refresh_models initial_settings (pyStr "openai") emptyNetEnv).models
      (pyStr "openai") = none :=
  C10_catalog_entries_nonempty.2.2.2 initial_settings (pyStr "openai")
    emptyNetEnv (by decide) (by decide)

/-! ### `ChatState` (`app/states/state.py`) -/

/-- The `Message` TypedDict: a role (`"user"` or `"assistant"`) and text. -/
structure Message where
  role : Str
  content : Str
deriving DecidableEq

/-- State of the chat module (`ChatState` in `app/states/state.py`). -/
structure ChatState where
  chats : List (Str × List Message)
  current_chat_id : Str
  is_streaming : Bool
deriving DecidableEq

/-- The initial `ChatState`: one empty thread `"new chat"`, active, not
streaming. -/
def initial_chat_state : ChatState :=
  { chats := [(pyStr "new chat", [])]
    current_chat_id := pyStr "new chat"
    is_streaming := false }

/-- Number of threads. -/
def threadCount (s : ChatState) : Nat := s.chats.length

/-- `ChatState.new_chat`: allocate `f"chat_{len(self.chats)}"`, empty, and
make it current. -/
def new_chat (s : ChatState) : ChatState :=
  let new_id := pyStr "chat_" ++ (Nat.repr s.chats.length).toList
  { s with chats := dset s.chats new_id [], current_chat_id := new_id }

/-- `ChatState.set_current_chat_id`. -/
def set_current_chat_id (s : ChatState) (chat_id : Str) : ChatState :=
  { s with current_chat_id := chat_id }

/-- The rename condition inside `handle_submit`:
`len(self.chats[self.current_chat_id]) == 1 and
self.current_chat_id.startswith("new chat")`, evaluated after the user
message was appended. -/
def rename_cond (chats1 : List (Str × List Message)) (cid : Str) : Bool :=
  ((dgetD chats1 cid []).length == 1) && pyStartswith (pyStr "new chat") cid

/-- The first locked section of `handle_submit` (already past the empty-text
guard, `message_text` trimmed and non-empty): append the user message,
rename a fresh default thread to the first 20 characters of the text, set
the streaming flag, append the empty assistant placeholder. -/
def submit_locked (s : ChatState) (message_text : Str) : ChatState :=
  let user_message : Message := { role := pyStr "user", content := message_text }
  let chats1 := dset s.chats s.current_chat_id
    (dgetD s.chats s.current_chat_id [] ++ [user_message])
  let new_title := message_text.take 20
  let cid2 := if rename_cond chats1 s.current_chat_id then new_title
              else s.current_chat_id
  let chats2 := if rename_cond chats1 s.current_chat_id then
      dset (dpop chats1 s.current_chat_id) new_title
        (dgetD chats1 s.current_chat_id [])
    else chats1
  let assistant_message : Message := { role := pyStr "assistant", content := [] }
  { chats := dset chats2 cid2 (dgetD chats2 cid2 [] ++ [assistant_message])
    current_chat_id := cid2
    is_streaming := true }

/-- Overwrite the content of the last message of a list (the in-place
mutation `self.chats[self.current_chat_id][-1]["content"] = ...`). -/
def setLast : List Message → Str → List Message
  | [], _ => []
  | [m], c => [{ m with content := c }]
  | m :: m2 :: rest, c => m :: setLast (m2 :: rest) c

/-- One streaming write: store `c` into the last message of the chat that is
current at write time. -/
def set_last_content (s : ChatState) (c : Str) : ChatState :=
  { s with
    chats :=
      dset s.chats s.current_chat_id
        (setLast (dgetD s.chats s.current_chat_id []) c) }

/-- The chat states observable at the yield after each received fragment of
`_stream_openai_compatible_response`: the accumulator grows by each
fragment and is written into the last message of the current chat. -/
def stream_states_aux (s : ChatState) (acc : Str) : List Str → List ChatState
  | [] => []
  | f :: fs =>
    let s2 := set_last_content s (acc ++ f)
    s2 :: stream_states_aux s2 (acc ++ f) fs

/-- States after each fragment, starting from an empty accumulator. -/
def stream_states (s : ChatState) (frags : List Str) : List ChatState :=
  stream_states_aux s [] frags

/-- The final state of the fragment loop. -/
def run_stream_aux (s : ChatState) (acc : Str) : List Str → ChatState
  | [] => s
  | f :: fs => run_stream_aux (set_last_content s (acc ++ f)) (acc ++ f) fs

/-- Run the whole successful fragment loop. -/
def run_stream (s : ChatState) (frags : List Str) : ChatState :=
  run_stream_aux s [] frags

/-- The error text `f"API Error: {e.code} - {e.message}"` written by the
`except APIError` handler. -/
def apiErrorMsg (code msg : Str) : Str :=
  pyStr "API Error: " ++ code ++ pyStr " - " ++ msg

/-- Outcome of the provider streaming call: either the stream is exhausted
after delivering `frags`, or an `APIError` is raised after the fragments
`pre` were already delivered. -/
inductive StreamOutcome where
  | success (frags : List Str)
  | apiError (pre : List Str) (code msg : Str)
deriving DecidableEq

/-- Result of `_process_and_stream_response`: either a configured stream
(client base URL, key, model id, prior messages) or a terminal error
string. -/
inductive ResolveResult where
  | stream (base_url : Option Str) (api_key : Option Str) (model_id : Str)
      (messages_to_send : List Message)
  | resolveErr (msg : Str)
deriving DecidableEq

/-- The `base_urls` dict of `_process_and_stream_response`: `some none` is
openai's `None` entry, `some (some u)` a fixed URL, `none` a provider absent
from the dict (not OpenAI-compatible). -/
def base_urls_get (st : SettingsState) (provider : Str) : Option (Option Str) :=
  if provider = pyStr "openai" then some none
  else if provider = pyStr "groq" then
    some (some (pyStr "https://api.groq.com/openai/v1"))
  else if provider = pyStr "deepseek" then
    some (some (pyStr "https://api.deepseek.com"))
  else if provider = pyStr "openrouter" then
    some (some (pyStr "https://openrouter.ai/api/v1"))
  else if provider = pyStr "moonshot" then
    some (some (pyStr "https://api.moonshot.cn/v1"))
  else if provider = pyStr "ollama" then some (some (ollama_chat_base_url st))
  else none

/-- The resolution phase of `_process_and_stream_response`: the pre-I/O
checks (no model selected; unsupported provider; missing API key) and the
client configuration. -/
def process_resolve (s : ChatState) (st : SettingsState) : ResolveResult :=
  let provider := st.selected_provider
  let model_id := st.selected_model_id
  let api_key := dget? st.api_keys provider
  if provider = [] ∨ model_id = [] then
    .resolveErr (pyStr "No model selected. Please select a model in settings.")
  else
    let messages_to_send := (dgetD s.chats s.current_chat_id []).dropLast
    match base_urls_get st provider with
    | some bu =>
        if optFalsy api_key ∧ provider ≠ pyStr "openrouter"
            ∧ provider ≠ pyStr "ollama" then
          .resolveErr (pyStr "API key for " ++ provider ++ pyStr " not set.")
        else .stream bu api_key model_id messages_to_send
    | none =>
        .resolveErr (pyStr "Provider '" ++ provider
          ++ pyStr "' is not yet supported for chat.")

/-- `ChatState.handle_submit`, parameterised by the settings snapshot and
the stream outcome: trims the text, returns unchanged on empty text,
otherwise runs the locked section, streams or writes the error into the
placeholder, and clears the flag in the `finally`. -/
def handle_submit (s : ChatState) (st : SettingsState) (raw : Str)
    (out : StreamOutcome) : ChatState :=
  let message_text := pyStrip raw
  if message_text = [] then s
  else
    let s1 := submit_locked s message_text
    let s2 :=
      match process_resolve s1 st with
      | .resolveErr msg => set_last_content s1 msg
      | .stream _ _ _ _ =>
        match out with
        | .success frags => run_stream s1 frags
        | .apiError pre code emsg =>
            set_last_content (run_stream s1 pre) (apiErrorMsg code emsg)
    { s2 with is_streaming := false }

/-- The states observable at the yields of a submission (after the locked
section, after each fragment, and after a terminal error write), before the
`finally` clears the flag. -/
def submit_during (s : ChatState) (st : SettingsState) (raw : Str)
    (out : StreamOutcome) : List ChatState :=
  let message_text := pyStrip raw
  if message_text = [] then []
  else
    let s1 := submit_locked s message_text
    match process_resolve s1 st with
    | .resolveErr msg => [s1, set_last_content s1 msg]
    | .stream _ _ _ _ =>
      match out with
      | .success frags => s1 :: stream_states s1 frags
      | .apiError pre code emsg =>
          (s1 :: stream_states s1 pre)
            ++ [set_last_content (run_stream s1 pre) (apiErrorMsg code emsg)]

/-! ### Streaming lemmas -/

/-- The last message of a list (Python `l[-1]`). -/
def lastMsg : List Message → Option Message
  | [] => none
  | [m] => some m
  | _ :: m2 :: rest => lastMsg (m2 :: rest)

/-- The content of the trailing message of the current chat. -/
def lastContent (q : ChatState) : Option Str :=
  (lastMsg (dgetD q.chats q.current_chat_id [])).map Message.content

theorem setLast_ne_nil : ∀ (l : List Message) (c : Str), l ≠ [] → setLast l c ≠ []
  | [], _, h => absurd rfl h
  | [_], _, _ => by simp [setLast]
  | _ :: _ :: _, _, _ => by simp [setLast]

theorem lastMsg_cons_ne (m : Message) (l : List Message) (h : l ≠ []) :
    lastMsg (m :: l) = lastMsg l := by
  cases l with
  | nil => exact absurd rfl h
  | cons b t => rfl

theorem lastMsg_setLast_content : ∀ (l : List Message) (c : Str), l ≠ [] →
    (lastMsg (setLast l c)).map Message.content = some c
  | [], _, h => absurd rfl h
  | [_], _, _ => rfl
  | m :: m2 :: rest, c, _ => by
      rw [show setLast (m :: m2 :: rest) c = m :: setLast (m2 :: rest) c from rfl]
      rw [lastMsg_cons_ne _ _ (setLast_ne_nil (m2 :: rest) c (by simp))]
      exact lastMsg_setLast_content (m2 :: rest) c (by simp)

theorem set_last_content_current (s : ChatState) (c : Str) :
    (set_last_content s c).current_chat_id = s.current_chat_id := rfl

theorem set_last_content_streaming (s : ChatState) (c : Str) :
    (set_last_content s c).is_streaming = s.is_streaming := rfl

theorem set_last_content_get (s : ChatState) (c : Str) :
    dgetD (set_last_content s c).chats (set_last_content s c).current_chat_id []
      = setLast (dgetD s.chats s.current_chat_id []) c := by
  simp [set_last_content, dgetD, dget?_dset_self]

theorem lastContent_set_last (s : ChatState) (c : Str)
    (h : dgetD s.chats s.current_chat_id [] ≠ []) :
    lastContent (set_last_content s c) = some c := by
  unfold lastContent
  rw [set_last_content_get]
  exact lastMsg_setLast_content _ _ h

theorem set_last_content_nonempty (s : ChatState) (c : Str)
    (h : dgetD s.chats s.current_chat_id [] ≠ []) :
    dgetD (set_last_content s c).chats (set_last_content s c).current_chat_id []
      ≠ [] := by
  rw [set_last_content_get]
  exact setLast_ne_nil _ _ h

theorem submit_locked_streaming (s : ChatState) (mt : Str) :
    (submit_locked s mt).is_streaming = true := rfl

theorem submit_locked_nonempty (s : ChatState) (mt : Str) :
    dgetD (submit_locked s mt).chats (submit_locked s mt).current_chat_id []
      ≠ [] := by
  unfold submit_locked
  dsimp only
  rw [dgetD, dget?_dset_self]
  simp

theorem stream_states_aux_flag (fs : List Str) :
    ∀ (s : ChatState) (acc : Str), s.is_streaming = true →
      ∀ q ∈ stream_states_aux s acc fs, q.is_streaming = true := by
  induction fs with
  | nil => intro s acc _ q hq; simp [stream_states_aux] at hq
  | cons f fs ih =>
    intro s acc hs q hq
    simp only [stream_states_aux, List.mem_cons] at hq
    rcases hq with rfl | hq
    · simpa [set_last_content_streaming] using hs
    · exact ih _ _ (by simpa [set_last_content_streaming] using hs) q hq

theorem run_stream_aux_flag (fs : List Str) :
    ∀ (s : ChatState) (acc : Str),
      (run_stream_aux s acc fs).is_streaming = s.is_streaming := by
  induction fs with
  | nil => intro s acc; rfl
  | cons f fs ih =>
    intro s acc
    simp only [run_stream_aux]
    rw [ih, set_last_content_streaming]

/-! ### Claim C9 -/

/-- C9: a submission whose text trims to empty leaves the state untouched —
no append, no rename, no flag — and produces no observable intermediate
state. -/
theorem C9_blank_submit_noop (s : ChatState) (st : SettingsState) (raw : Str)
    (out : StreamOutcome) (h : pyStrip raw = []) :
    handle_submit s st raw out = s ∧ submit_during s st raw out = [] := by
  constructor
  · simp [handle_submit, h]
  · simp [submit_during, h]

/-- C9 witness: submitting three spaces changes nothing. -/
theorem C9_blank_submit_noop_witness :
    handle_submit initial_chat_state initial_settings (pyStr "   ")
        (.success [pyStr "x"]) = initial_chat_state ∧
      submit_during initial_chat_state initial_settings (pyStr "   ")
        (.success [pyStr "x"]) = [] :=
  C9_blank_submit_noop _ _ _ _ (by decide)

/-! ### Claim C1 -/

/-- C1: for a non-empty trimmed submission the streaming flag is true in
every state observable during the submission and false after it completes,
whatever the configuration (no model, unsupported provider, missing key)
and whatever the stream outcome (exhaustion or APIError). -/
theorem C1_streaming_flag_guaranteed (s : ChatState) (st : SettingsState)
    (raw : Str) (out : StreamOutcome) (h : pyStrip raw ≠ []) :
    (∀ q ∈ submit_during s st raw out, q.is_streaming = true) ∧
      (handle_submit s st raw out).is_streaming = false := by
  have hflag : (submit_locked s (pyStrip raw)).is_streaming = true := rfl
  constructor
  · intro q hq
    simp only [submit_during] at hq
    rw [if_neg h] at hq
    rcases hres : process_resolve (submit_locked s (pyStrip raw)) st with
        ⟨bu, ak, mid, ms⟩ | msg
    · rw [hres] at hq
      cases out with
      | success frags =>
        simp only [List.mem_cons] at hq
        rcases hq with rfl | hq
        · exact hflag
        · exact stream_states_aux_flag frags _ [] hflag q hq
      | apiError pre code emsg =>
        simp only [List.mem_append, List.mem_cons, List.mem_singleton] at hq
        rcases hq with (rfl | hq) | (rfl | hfalse)
        · exact hflag
        · exact stream_states_aux_flag pre _ [] hflag q hq
        · rw [set_last_content_streaming, run_stream, run_stream_aux_flag]
          exact hflag
        · simp at hfalse
    · rw [hres] at hq
      simp only [List.mem_cons, List.mem_singleton] at hq
      rcases hq with rfl | rfl | hfalse
      · exact hflag
      · rw [set_last_content_streaming]; exact hflag
      · simp at hfalse
  · simp only [handle_submit]
    rw [if_neg h]

/-- C1 witness: a concrete successful submission. -/
theorem C1_streaming_flag_guaranteed_witness :
    (∀ q ∈ submit_during initial_chat_state initial_settings (pyStr "hi")
        (.success [pyStr "ok"]), q.is_streaming = true) ∧
      (handle_submit initial_chat_state initial_settings (pyStr "hi")
        (.success [pyStr "ok"])).is_streaming = false :=
  C1_streaming_flag_guaranteed _ _ _ _ (by decide)

/-! ### Claim C2 -/

/-- Concatenation of a list of strings. -/
def concatStrs (l : List Str) : Str := l.foldr (fun a b => a ++ b) []

theorem concatStrs_append (a b : List Str) :
    concatStrs (a ++ b) = concatStrs a ++ concatStrs b := by
  induction a with
  | nil => rfl
  | cons x xs ih =>
    simp only [List.cons_append, concatStrs, List.foldr_cons] at *
    rw [ih, List.append_assoc]

theorem stream_states_aux_length (fs : List Str) :
    ∀ (s : ChatState) (acc : Str),
      (stream_states_aux s acc fs).length = fs.length := by
  induction fs with
  | nil => intro s acc; rfl
  | cons f fs ih => intro s acc; simp only [stream_states_aux, List.length_cons, ih]

theorem stream_states_aux_content (fs : List Str) :
    ∀ (s d : ChatState) (acc : Str) (k : Nat),
      dgetD s.chats s.current_chat_id [] ≠ [] → k < fs.length →
      lastContent ((stream_states_aux s acc fs).getD k d)
        = some (acc ++ concatStrs (fs.take (k + 1))) := by
  induction fs with
  | nil => intro s d acc k _ hk; simp at hk
  | cons f fs ih =>
    intro s d acc k h hk
    cases k with
    | zero =>
      simp only [stream_states_aux, List.getD_cons_zero]
      rw [lastContent_set_last _ _ h]
      simp [concatStrs]
    | succ k =>
      have h2 := set_last_content_nonempty s (acc ++ f) h
      have hk2 : k < fs.length := by simpa using hk
      simp only [stream_states_aux, List.getD_cons_succ]
      rw [ih (set_last_content s (acc ++ f)) d (acc ++ f) k h2 hk2]
      simp [concatStrs, List.foldr_cons, List.append_assoc]

/-- C2: during one submission's streaming phase, after the k-th received
fragment the trailing placeholder's content equals the concatenation of the
first k fragments, so the content only ever grows (each step's content
extends the previous one). -/
theorem C2_placeholder_content_monotone (s : ChatState) (raw : Str)
    (frags : List Str) (k : Nat) (hraw : pyStrip raw ≠ [])
    (hk : k < frags.length) :
    (stream_states (submit_locked s (pyStrip raw)) frags).length = frags.length ∧
      lastContent ((stream_states (submit_locked s (pyStrip raw)) frags).getD k
        (submit_locked s (pyStrip raw))) = some (concatStrs (frags.take (k + 1))) ∧
      ∃ t, concatStrs (frags.take (k + 1)) = concatStrs (frags.take k) ++ t := by
  refine ⟨stream_states_aux_length _ _ _, ?_, ?_⟩
  · have h := submit_locked_nonempty s (pyStrip raw)
    have := stream_states_aux_content frags (submit_locked s (pyStrip raw))
      (submit_locked s (pyStrip raw)) [] k h hk
    simpa [stream_states] using this
  · rw [List.take_succ, concatStrs_append]
    exact ⟨_, rfl⟩

/-- C2 witness: fragments `"Hel"` then `"lo"` make the content progress
through `"Hel"` and then `"Hello"`. -/
theorem C2_placeholder_content_monotone_witness :
    lastContent ((stream_states (submit_locked initial_chat_state (pyStr "hi"))
        [pyStr "Hel", pyStr "lo"]).getD 1
      (submit_locked initial_chat_state (pyStr "hi")))
      = some (concatStrs [pyStr "Hel", pyStr "lo"]) ∧
      concatStrs [pyStr "Hel", pyStr "lo"] = pyStr "Hello" :=
  ⟨((C2_placeholder_content_monotone initial_chat_state (pyStr "hi")
      [pyStr "Hel", pyStr "lo"] 1 (by decide) (by decide)).2.1).trans
    (by decide),
   by decide⟩

/-! ### Claim C6 -/

theorem submit_locked_fresh (s : ChatState) (mt : Str)
    (hnew : pyStartswith (pyStr "new chat") s.current_chat_id = true)
    (hempty : dgetD s.chats s.current_chat_id [] = []) :
    (submit_locked s mt).current_chat_id = mt.take 20 ∧
      dgetD (submit_locked s mt).chats (mt.take 20) []
        = [⟨pyStr "user", mt⟩, ⟨pyStr "assistant", []⟩] := by
  have hchats1 : dgetD (dset s.chats s.current_chat_id
      (dgetD s.chats s.current_chat_id [] ++ [⟨pyStr "user", mt⟩]))
      s.current_chat_id [] = [⟨pyStr "user", mt⟩] := by
    rw [dgetD, dget?_dset_self, hempty]
    rfl
  have hcond : rename_cond (dset s.chats s.current_chat_id
      (dgetD s.chats s.current_chat_id [] ++ [⟨pyStr "user", mt⟩]))
      s.current_chat_id = true := by
    unfold rename_cond
    rw [hchats1, hnew]
    rfl
  constructor
  · show (if rename_cond _ s.current_chat_id then mt.take 20
        else s.current_chat_id) = mt.take 20
    rw [if_pos hcond]
  · show dgetD (dset _ _ _) (mt.take 20) [] = _
    simp only [hcond, if_true]
    rw [dgetD, dget?_dset_self]
    simp only [Option.getD_some]
    rw [dgetD, dget?_dset_self]
    simp only [Option.getD_some]
    rw [hchats1]
    rfl

theorem set_last_pair (q : ChatState) (u : Message) (r c x : Str)
    (hq : dgetD q.chats q.current_chat_id [] = [u, ⟨r, c⟩]) :
    (set_last_content q x).current_chat_id = q.current_chat_id ∧
      dgetD (set_last_content q x).chats
        (set_last_content q x).current_chat_id [] = [u, ⟨r, x⟩] := by
  refine ⟨rfl, ?_⟩
  rw [set_last_content_get, hq]
  rfl

theorem run_stream_aux_pair (fs : List Str) :
    ∀ (q : ChatState) (acc : Str) (u : Message) (r c : Str),
      dgetD q.chats q.current_chat_id [] = [u, ⟨r, c⟩] →
      (run_stream_aux q acc fs).current_chat_id = q.current_chat_id ∧
        ∃ c2, dgetD (run_stream_aux q acc fs).chats
          (run_stream_aux q acc fs).current_chat_id [] = [u, ⟨r, c2⟩] := by
  induction fs with
  | nil => intro q acc u r c hq; exact ⟨rfl, c, hq⟩
  | cons f fs ih =>
    intro q acc u r c hq
    simp only [run_stream_aux]
    have hstep := set_last_pair q u r c (acc ++ f) hq
    have := ih (set_last_content q (acc ++ f)) (acc ++ f) u r (acc ++ f) hstep.2
    exact ⟨this.1.trans hstep.1, this.2⟩

/-- C6 counterexample: a thread freshly created by `new_chat` (key
`"chat_1"`, zero messages) is NOT renamed by its first message `"hello"` —
the active key stays `"chat_1"` and no key `"hello"` exists. -/
theorem C6_counterexample_created_thread_not_renamed :
    (handle_submit (new_chat initial_chat_state) initial_settings
        (pyStr "hello") (.success [])).current_chat_id = pyStr "chat_1" ∧
      dmem (handle_submit (new_chat initial_chat_state) initial_settings
        (pyStr "hello") (.success [])).chats (pyStr "hello") = false := by
  decide

/-- C6 (amended): the rename on first message happens only for a thread
whose key starts with `"new chat"` (the default initial thread): for such an
empty thread, a submission with non-empty trimmed text moves its messages
under the key made of the first 20 characters of the text — the user
message first, then the assistant placeholder — and the active key becomes
that new key.  Threads created by `new_chat` (keys `"chat_<n>"`) are never
renamed. -/
theorem C6_amended_default_thread_renamed (s : ChatState) (st : SettingsState)
    (raw : Str) (out : StreamOutcome)
    (hmt : pyStrip raw ≠ [])
    (hnew : pyStartswith (pyStr "new chat") s.current_chat_id = true)
    (hempty : dgetD s.chats s.current_chat_id [] = []) :
    (handle_submit s st raw out).current_chat_id = (pyStrip raw).take 20 ∧
      ∃ c, dgetD (handle_submit s st raw out).chats ((pyStrip raw).take 20) []
        = [⟨pyStr "user", pyStrip raw⟩, ⟨pyStr "assistant", c⟩] := by
  have hfresh := submit_locked_fresh s (pyStrip raw) hnew hempty
  have hget1 : dgetD (submit_locked s (pyStrip raw)).chats
      (submit_locked s (pyStrip raw)).current_chat_id []
      = [⟨pyStr "user", pyStrip raw⟩, ⟨pyStr "assistant", []⟩] := by
    rw [hfresh.1]
    exact hfresh.2
  have key : ∀ s2 : ChatState,
      s2.current_chat_id = (submit_locked s (pyStrip raw)).current_chat_id →
      (∃ c2, dgetD s2.chats s2.current_chat_id []
        = [⟨pyStr "user", pyStrip raw⟩, ⟨pyStr "assistant", c2⟩]) →
      ({ s2 with is_streaming := false } : ChatState).current_chat_id
          = (pyStrip raw).take 20 ∧
        ∃ c, dgetD ({ s2 with is_streaming := false } : ChatState).chats
          ((pyStrip raw).take 20) []
          = [⟨pyStr "user", pyStrip raw⟩, ⟨pyStr "assistant", c⟩] := by
    intro s2 hcur hex
    obtain ⟨c2, hget⟩ := hex
    constructor
    · show s2.current_chat_id = _
      rw [hcur, hfresh.1]
    · refine ⟨c2, ?_⟩
      show dgetD s2.chats _ [] = _
      rw [← hfresh.1, ← hcur]
      exact hget
  simp only [handle_submit]
  rw [if_neg hmt]
  rcases hres : process_resolve (submit_locked s (pyStrip raw)) st with
      ⟨bu, ak, mid, ms⟩ | msg
  · cases out with
    | success frags =>
      have hp := run_stream_aux_pair frags (submit_locked s (pyStrip raw)) []
        ⟨pyStr "user", pyStrip raw⟩ (pyStr "assistant") [] hget1
      exact key _ hp.1 hp.2
    | apiError pre code emsg =>
      have hp := run_stream_aux_pair pre (submit_locked s (pyStrip raw)) []
        ⟨pyStr "user", pyStrip raw⟩ (pyStr "assistant") [] hget1
      obtain ⟨c2, hget2⟩ := hp.2
      have hs := set_last_pair _ _ _ _ (apiErrorMsg code emsg) hget2
      exact key _ (hs.1.trans hp.1) ⟨_, hs.2⟩
  · have hs := set_last_pair _ _ _ _ msg hget1
    exact key _ hs.1 ⟨_, hs.2⟩

/-- C6 witness: the default thread with first message `"hello"` is renamed
to key `"hello"`, holding the user message then the placeholder. -/
theorem C6_amended_default_thread_renamed_witness :
    (handle_submit initial_chat_state initial_settings (pyStr "hello")
        (.success [pyStr "Hi"])).current_chat_id = (pyStrip (pyStr "hello")).take 20 ∧
      ∃ c, dgetD (handle_submit initial_chat_state initial_settings
          (pyStr "hello") (.success [pyStr "Hi"])).chats
          ((pyStrip (pyStr "hello")).take 20) []
        = [⟨pyStr "user", pyStrip (pyStr "hello")⟩, ⟨pyStr "assistant", c⟩] :=
  C6_amended_default_thread_renamed initial_chat_state initial_settings
    (pyStr "hello") (.success [pyStr "Hi"]) (by decide) (by decide) (by decide)

/-! ### Claim C7 -/

theorem dmem_iff_mem_dkeys {α : Type} (m : List (Str × α)) (k : Str) :
    dmem m k = true ↔ k ∈ dkeys m := by
  induction m with
  | nil =>
    constructor
    · intro h
      exact absurd h (by simp [dmem, dget?])
    · intro h
      exact absurd h (by simp [dkeys])
  | cons e rest ih =>
    by_cases he : e.1 = k
    · constructor
      · intro _
        rw [show dkeys (e :: rest) = e.1 :: dkeys rest from rfl, he]
        exact List.mem_cons_self _ _
      · intro _
        simp [dmem, dget?, he]
    · constructor
      · intro h
        have hrest : dmem rest k = true := by
          simpa [dmem, dget?, he] using h
        rw [show dkeys (e :: rest) = e.1 :: dkeys rest from rfl]
        exact List.mem_cons_of_mem _ (ih.mp hrest)
      · intro h
        rw [show dkeys (e :: rest) = e.1 :: dkeys rest from rfl] at h
        rcases List.mem_cons.mp h with h1 | h1
        · exact absurd h1.symm he
        · have hrest := ih.mpr h1
          simpa [dmem, dget?, he] using hrest

theorem length_dset_ge {α : Type} (m : List (Str × α)) (k : Str) (v : α) :
    m.length ≤ (dset m k v).length := by
  induction m with
  | nil => simp [dset]
  | cons e rest ih =>
    by_cases he : e.1 = k
    · simp [dset, he]
    · simp only [dset, if_neg he, List.length_cons]
      omega

theorem length_dset_not_mem {α : Type} (m : List (Str × α)) (k : Str) (v : α)
    (h : dmem m k = false) : (dset m k v).length = m.length + 1 := by
  induction m with
  | nil => rfl
  | cons e rest ih =>
    have he : e.1 ≠ k := by
      intro hh
      simp [dmem, dget?, hh] at h
    have hrest : dmem rest k = false := by
      simpa [dmem, dget?, he] using h
    simp [dset, he, ih hrest]

theorem dkeys_dset {α : Type} (m : List (Str × α)) (k : Str) (v : α) :
    dkeys (dset m k v) = if dmem m k then dkeys m else dkeys m ++ [k] := by
  induction m with
  | nil => simp [dset, dkeys, dmem, dget?]
  | cons e rest ih =>
    by_cases he : e.1 = k
    · subst he
      simp [dset, dkeys, dmem, dget?]
    · have hmem : dmem (e :: rest) k = dmem rest k := by simp [dmem, dget?, he]
      simp only [dset, if_neg he, dkeys, List.map_cons, hmem]
      rw [show dkeys (dset rest k v) = List.map Prod.fst (dset rest k v) from rfl] at ih
      rw [ih]
      by_cases hm : dmem rest k = true
      · simp [hm, dkeys]
      · simp only [Bool.not_eq_true] at hm
        simp [hm, dkeys]

theorem dkeys_dpop {α : Type} (m : List (Str × α)) (k : Str) :
    dkeys (dpop m k) = (dkeys m).filter (fun x => !(x == k)) := by
  induction m with
  | nil => rfl
  | cons e rest ih =>
    have ih2 : List.map Prod.fst (dpop rest k)
        = List.filter (fun x => !(x == k)) (List.map Prod.fst rest) := ih
    by_cases he : e.1 = k
    · simp [dpop, he, dkeys, ih2, List.filter_cons]
    · simp [dpop, he, dkeys, ih2, List.filter_cons]

theorem length_filter_ne_nodup (l : List Str) (k : Str) (hnd : l.Nodup)
    (hm : k ∈ l) :
    ((l.filter (fun x => !(x == k))).length) + 1 = l.length := by
  induction l with
  | nil => cases hm
  | cons a t ih =>
    rcases List.mem_cons.mp hm with rfl | hmt
    · have hk : k ∉ t := (List.nodup_cons.mp hnd).1
      have hft : t.filter (fun x => !(x == k)) = t := by
        apply List.filter_eq_self.mpr
        intro x hx
        have hxk : x ≠ k := fun hh => hk (hh ▸ hx)
        simp [hxk]
      simp [List.filter_cons, hft]
    · have ha : a ≠ k := fun hh => (List.nodup_cons.mp hnd).1 (hh ▸ hmt)
      have := ih (List.nodup_cons.mp hnd).2 hmt
      simp only [List.filter_cons, List.length_cons]
      have hpa : (!(a == k)) = true := by simp [ha]
      rw [if_pos hpa]
      simp only [List.length_cons]
      omega

theorem nodup_dkeys_dset {α : Type} (m : List (Str × α)) (k : Str) (v : α)
    (h : (dkeys m).Nodup) : (dkeys (dset m k v)).Nodup := by
  rw [dkeys_dset]
  by_cases hm : dmem m k = true
  · simp [hm, h]
  · have hk : k ∉ dkeys m := fun hmem => hm ((dmem_iff_mem_dkeys m k).mpr hmem)
    simp only [Bool.not_eq_true] at hm
    simp [hm, List.nodup_append, h, hk]

theorem threadCount_set_last_ge (q : ChatState) (c : Str) :
    threadCount q ≤ threadCount (set_last_content q c) :=
  length_dset_ge _ _ _

theorem threadCount_run_stream_ge (fs : List Str) :
    ∀ (q : ChatState) (acc : Str),
      threadCount q ≤ threadCount (run_stream_aux q acc fs) := by
  induction fs with
  | nil => intro q acc; exact le_refl _
  | cons f fs ih =>
    intro q acc
    simp only [run_stream_aux]
    exact le_trans (threadCount_set_last_ge q (acc ++ f)) (ih _ _)

theorem threadCount_submit_locked_ge (s : ChatState) (mt : Str)
    (hnd : (dkeys s.chats).Nodup)
    (hcol : dmem s.chats (mt.take 20) = false
      ∨ mt.take 20 = s.current_chat_id) :
    threadCount s ≤ threadCount (submit_locked s mt) := by
  unfold submit_locked threadCount
  dsimp only
  refine le_trans ?_ (length_dset_ge _ _ _)
  by_cases hre : rename_cond (dset s.chats s.current_chat_id
      (dgetD s.chats s.current_chat_id []
        ++ [({ role := pyStr "user", content := mt } : Message)]))
      s.current_chat_id = true
  · rw [if_pos hre]
    generalize hV : dgetD s.chats s.current_chat_id []
        ++ [({ role := pyStr "user", content := mt } : Message)] = V at *
    generalize hc1 : dset s.chats s.current_chat_id V = chats1 at *
    have hnd1 : (dkeys chats1).Nodup := hc1 ▸ nodup_dkeys_dset _ _ _ hnd
    have hmem1 : dmem chats1 s.current_chat_id = true := by
      rw [← hc1]
      simp [dmem, dget?_dset_self]
    have hlen1 : s.chats.length ≤ chats1.length :=
      hc1 ▸ length_dset_ge _ _ _
    have hlenpop : (dpop chats1 s.current_chat_id).length + 1 = chats1.length := by
      have hflt := length_filter_ne_nodup (dkeys chats1) s.current_chat_id hnd1
        ((dmem_iff_mem_dkeys _ _).mp hmem1)
      have hkeys := dkeys_dpop chats1 s.current_chat_id
      have e1 : (dpop chats1 s.current_chat_id).length
          = (dkeys (dpop chats1 s.current_chat_id)).length := by
        simp [dkeys]
      have e2 : chats1.length = (dkeys chats1).length := by simp [dkeys]
      rw [e1, hkeys, e2]
      exact hflt
    have hnotmem : dmem (dpop chats1 s.current_chat_id) (mt.take 20) = false := by
      rw [← Bool.not_eq_true]
      intro hmem
      have hmemk := (dmem_iff_mem_dkeys _ _).mp hmem
      rw [dkeys_dpop] at hmemk
      have hne := List.of_mem_filter hmemk
      have hmemk1 : mt.take 20 ∈ dkeys chats1 := List.mem_of_mem_filter hmemk
      have htne : mt.take 20 ≠ s.current_chat_id := by simpa using hne
      rcases hcol with hc | hc
      · rw [← hc1, dkeys_dset] at hmemk1
        by_cases hm : dmem s.chats s.current_chat_id = true
        · rw [if_pos hm] at hmemk1
          have : dmem s.chats (mt.take 20) = true :=
            (dmem_iff_mem_dkeys _ _).mpr hmemk1
          rw [hc] at this
          exact absurd this (by simp)
        · rw [if_neg hm] at hmemk1
          rcases List.mem_append.mp hmemk1 with hmm | hmm
          · have : dmem s.chats (mt.take 20) = true :=
              (dmem_iff_mem_dkeys _ _).mpr hmm
            rw [hc] at this
            exact absurd this (by simp)
          · exact htne (List.mem_singleton.mp hmm)
      · exact htne hc
    have hfinal : (dset (dpop chats1 s.current_chat_id) (mt.take 20)
        (dgetD chats1 s.current_chat_id [])).length
        = (dpop chats1 s.current_chat_id).length + 1 :=
      length_dset_not_mem _ _ _ hnotmem
    omega
  · rw [if_neg hre]
    exact length_dset_ge _ _ _

/-- C7 counterexample: starting from the initial state, create a thread
(`"chat_1"`), go back to `"new chat"`, and submit the message `"chat_1"`:
the rename `chats["chat_1"] = chats.pop("new chat")` overwrites the existing
thread `"chat_1"`, and the thread count drops from 2 to 1. -/
theorem C7_counterexample_rename_overwrites_thread :
    threadCount (set_current_chat_id (new_chat initial_chat_state)
        (pyStr "new chat")) = 2 ∧
      threadCount (handle_submit (set_current_chat_id (new_chat initial_chat_state)
        (pyStr "new chat")) initial_settings (pyStr "chat_1") (.success [])) = 1 := by
  decide

/-- C7 (amended): `selectThread` and `createThread` never decrease the
number of threads, and `handle_submit` never decreases it provided the
first 20 characters of the trimmed text do not collide with the key of a
different existing thread; in that collision case the rename overwrites the
other thread, so the count can drop. -/
theorem C7_amended_thread_count_monotone :
    (∀ (s : ChatState) (id : Str),
        threadCount (set_current_chat_id s id) = threadCount s) ∧
      (∀ s : ChatState, threadCount s ≤ threadCount (new_chat s)) ∧
      (∀ (s : ChatState) (st : SettingsState) (raw : Str) (out : StreamOutcome),
        (dkeys s.chats).Nodup →
        (dmem s.chats ((pyStrip raw).take 20) = false
          ∨ (pyStrip raw).take 20 = s.current_chat_id) →
        threadCount s ≤ threadCount (handle_submit s st raw out)) := by
  refine ⟨fun s id => rfl, fun s => length_dset_ge _ _ _, ?_⟩
  intro s st raw out hnd hcol
  by_cases hmt : pyStrip raw = []
  · simp [handle_submit, hmt]
  · simp only [handle_submit]
    rw [if_neg hmt]
    have h1 := threadCount_submit_locked_ge s (pyStrip raw) hnd hcol
    rcases hres : process_resolve (submit_locked s (pyStrip raw)) st with
        ⟨bu, ak, mid, ms⟩ | msg
    · cases out with
      | success frags =>
        exact le_trans h1 (threadCount_run_stream_ge frags _ [])
      | apiError pre code emsg =>
        exact le_trans h1 (le_trans (threadCount_run_stream_ge pre _ [])
          (threadCount_set_last_ge _ _))
    · exact le_trans h1 (threadCount_set_last_ge _ _)

/-- C7 witness: a concrete non-colliding submission does not lose threads. -/
theorem C7_amended_thread_count_monotone_witness :
    threadCount initial_chat_state
      ≤ threadCount (handle_submit initial_chat_state initial_settings
        (pyStr "hi") (.success [pyStr "ok"])) :=
  C7_amended_thread_count_monotone.2.2 initial_chat_state initial_settings
    (pyStr "hi") (.success [pyStr "ok"]) (by decide) (by decide)
